import Mathlib

/-!
Verification development for the code-monkey presentation-control system.

Shallow embedding of the repository's core: the length-prefixed message
codec (src/protocol/codec.rs, src/protocol/messages.rs), the block grouper
(src/grouper.rs), the presenter stepping state machine (src/client/mod.rs)
and the agent dispatch function (src/agent/mod.rs).

Modelling conventions:
* Rust `String` is modelled as `List Nat` (its UTF-8 bytes); `strBytes`
  builds such byte lists from ASCII literals.
* Rust `Result<T, anyhow::Error>` is modelled as `RustResult Unit T`
  (the anyhow error payload is opaque); where an error message matters
  (the executor capability) the payload is the message bytes.
* `serde_json` payload serialization is an external library; it is modelled
  by an executable, self-describing, lossless byte serializer that keeps a
  discriminator tag per enum variant and the field order of the Rust
  declarations, and whose deserializer rejects trailing bytes, exactly as
  `serde_json::from_slice` does.  Its numbers and lengths are
  self-delimiting, so (like JSON text) the payload encoding itself imposes
  no truncation; the only width-limited field is the codec's 4-byte
  big-endian frame header, which `encode_message` produces with
  `json.len() as u32`, modelled as `% 2^32`.
* Blocking socket I/O inside `Presenter::send_and_receive` is modelled by
  an explicit trace of read outcomes (`ReadEvent`): a chunk of bytes, a
  zero-length read (peer closed), or a read error; an exhausted trace
  models a read that fails (e.g. the 30-second read timeout expiring).
-/

namespace CodeMonkey

/-- Rust `Result`, with an explicit error payload type. -/
inductive RustResult (ε : Type) (α : Type) where
  | ok (value : α)
  | err (error : ε)
deriving DecidableEq

/-- Bytes of a Rust `String` (UTF-8). -/
abbrev RStr := List Nat

/-- Byte list of an ASCII string literal (code points = UTF-8 bytes for ASCII). -/
def strBytes (s : String) : RStr := s.data.map Char.toNat

/-! ## Data model (src/parser/types.rs) -/

/-- Rust enum `SlideAction`. -/
inductive SlideAction where
  | Next
  | Prev
  | GoTo (n : Nat)
deriving DecidableEq

/-- Rust enum `Directive`. -/
inductive Directive where
  | Say (text : RStr)
  | Type (text : RStr)
  | Run
  | Pause (secs : Option Nat)
  | Focus (app : RStr)
  | Slide (action : SlideAction)
  | Key (combo : RStr)
  | Clear
  | Wait (secs : Nat)
  | Exec (cmd : RStr)
  | Section (name : RStr)
deriving DecidableEq

/-- Rust struct `FrontMatter`. -/
structure FrontMatter where
  title : Option RStr
  typing_speed : Nat
  typing_variance : Nat
  agent_port : Nat
deriving DecidableEq

/-- `FrontMatter::default()`. -/
def FrontMatter.default : FrontMatter :=
  { title := none, typing_speed := 40, typing_variance := 15, agent_port := 9876 }

/-- Rust struct `ParsedLine`. -/
structure ParsedLine where
  line_number : Nat
  directive : Directive
deriving DecidableEq

/-- Rust struct `Script`. -/
structure Script where
  front_matter : FrontMatter
  lines : List ParsedLine
deriving DecidableEq

/-! ## Message set (src/protocol/messages.rs) -/

/-- Rust enum `AckStatus`. -/
inductive AckStatus where
  | Ok
  | Error
deriving DecidableEq

/-- Rust enum `Message`. -/
inductive Message where
  | Execute (actions : List Directive) (typing_speed : Nat) (typing_variance : Nat)
  | Ack (status : AckStatus) (message : Option RStr)
  | Ping
  | Pong
deriving DecidableEq

/-! ## Payload serialization (model of `serde_json` at its contract)

Self-delimiting number encoding: `n` ones followed by a zero.  Strings are
encoded as their length followed by their raw bytes.  Every enum variant
gets a distinct leading tag byte, in Rust declaration order. -/

/-- Self-delimiting encoding of a natural number. -/
def encNat (n : Nat) : List Nat := List.replicate n 1 ++ [0]

/-- Parse a self-delimiting natural number, returning the value and the rest. -/
def parseNat : List Nat → RustResult Unit (Nat × List Nat)
  | [] => .err ()
  | b :: rest =>
    if b = 0 then .ok (0, rest)
    else if b = 1 then
      match parseNat rest with
      | .ok (n, r) => .ok (n + 1, r)
      | .err e => .err e
    else .err ()

/-- Length-prefixed byte string. -/
def encBytes (s : RStr) : List Nat := encNat s.length ++ s

/-- Parse a length-prefixed byte string. -/
def parseBytes (bs : List Nat) : RustResult Unit (RStr × List Nat) :=
  match parseNat bs with
  | .err e => .err e
  | .ok (n, r) => if n ≤ r.length then .ok (r.take n, r.drop n) else .err ()

/-- Optional byte string. -/
def encOptBytes : Option RStr → List Nat
  | none => [0]
  | some s => 1 :: encBytes s

/-- Parse an optional byte string. -/
def parseOptBytes : List Nat → RustResult Unit (Option RStr × List Nat)
  | [] => .err ()
  | b :: rest =>
    if b = 0 then .ok (none, rest)
    else if b = 1 then
      match parseBytes rest with
      | .ok (s, r) => .ok (some s, r)
      | .err e => .err e
    else .err ()

/-- Optional natural number. -/
def encOptNat : Option Nat → List Nat
  | none => [0]
  | some n => 1 :: encNat n

/-- Parse an optional natural number. -/
def parseOptNat : List Nat → RustResult Unit (Option Nat × List Nat)
  | [] => .err ()
  | b :: rest =>
    if b = 0 then .ok (none, rest)
    else if b = 1 then
      match parseNat rest with
      | .ok (n, r) => .ok (some n, r)
      | .err e => .err e
    else .err ()

/-- Serialization of `SlideAction`. -/
def encSlide : SlideAction → List Nat
  | .Next => [0]
  | .Prev => [1]
  | .GoTo n => 2 :: encNat n

/-- Parse a `SlideAction`. -/
def parseSlide : List Nat → RustResult Unit (SlideAction × List Nat)
  | [] => .err ()
  | b :: rest =>
    if b = 0 then .ok (.Next, rest)
    else if b = 1 then .ok (.Prev, rest)
    else if b = 2 then
      match parseNat rest with
      | .ok (n, r) => .ok (.GoTo n, r)
      | .err e => .err e
    else .err ()

/-- Serialization of one `Directive` (tag byte in declaration order). -/
def serializeDirective : Directive → List Nat
  | .Say s => 0 :: encBytes s
  | .Type s => 1 :: encBytes s
  | .Run => [2]
  | .Pause o => 3 :: encOptNat o
  | .Focus s => 4 :: encBytes s
  | .Slide a => 5 :: encSlide a
  | .Key s => 6 :: encBytes s
  | .Clear => [7]
  | .Wait n => 8 :: encNat n
  | .Exec s => 9 :: encBytes s
  | .Section s => 10 :: encBytes s

/-- Parse one `Directive`. -/
def parseDirective : List Nat → RustResult Unit (Directive × List Nat)
  | [] => .err ()
  | tag :: rest =>
    if tag = 0 then
      match parseBytes rest with
      | .ok (s, r) => .ok (.Say s, r)
      | .err e => .err e
    else if tag = 1 then
      match parseBytes rest with
      | .ok (s, r) => .ok (.Type s, r)
      | .err e => .err e
    else if tag = 2 then .ok (.Run, rest)
    else if tag = 3 then
      match parseOptNat rest with
      | .ok (o, r) => .ok (.Pause o, r)
      | .err e => .err e
    else if tag = 4 then
      match parseBytes rest with
      | .ok (s, r) => .ok (.Focus s, r)
      | .err e => .err e
    else if tag = 5 then
      match parseSlide rest with
      | .ok (a, r) => .ok (.Slide a, r)
      | .err e => .err e
    else if tag = 6 then
      match parseBytes rest with
      | .ok (s, r) => .ok (.Key s, r)
      | .err e => .err e
    else if tag = 7 then .ok (.Clear, rest)
    else if tag = 8 then
      match parseNat rest with
      | .ok (n, r) => .ok (.Wait n, r)
      | .err e => .err e
    else if tag = 9 then
      match parseBytes rest with
      | .ok (s, r) => .ok (.Exec s, r)
      | .err e => .err e
    else if tag = 10 then
      match parseBytes rest with
      | .ok (s, r) => .ok (.Section s, r)
      | .err e => .err e
    else .err ()

/-- Concatenated serializations of a directive list. -/
def encDirectives : List Directive → List Nat
  | [] => []
  | d :: ds => serializeDirective d ++ encDirectives ds

/-- Parse exactly `n` directives. -/
def parseDirectives : Nat → List Nat → RustResult Unit (List Directive × List Nat)
  | 0, bs => .ok ([], bs)
  | n + 1, bs =>
    match parseDirective bs with
    | .err e => .err e
    | .ok (d, r) =>
      match parseDirectives n r with
      | .err e => .err e
      | .ok (ds, r2) => .ok (d :: ds, r2)

/-- Serialization of `AckStatus`. -/
def encAckStatus : AckStatus → List Nat
  | .Ok => [0]
  | .Error => [1]

/-- Parse an `AckStatus`. -/
def parseAckStatus : List Nat → RustResult Unit (AckStatus × List Nat)
  | [] => .err ()
  | b :: rest =>
    if b = 0 then .ok (.Ok, rest)
    else if b = 1 then .ok (.Error, rest)
    else .err ()

/-- Serialization of a `Message`: variant tag, then the fields in order.
An `Execute` carries the count of its directive list followed by each
directive's own tagged serialization (the lossless list structure). -/
def serializeMessage : Message → List Nat
  | .Execute actions typing_speed typing_variance =>
    0 :: (encNat actions.length ++ encDirectives actions
          ++ encNat typing_speed ++ encNat typing_variance)
  | .Ack status message => 1 :: (encAckStatus status ++ encOptBytes message)
  | .Ping => [2]
  | .Pong => [3]

/-- Parse one `Message` from the front of a byte list. -/
def parseMessage : List Nat → RustResult Unit (Message × List Nat)
  | [] => .err ()
  | tag :: rest =>
    if tag = 0 then
      match parseNat rest with
      | .err e => .err e
      | .ok (n, r0) =>
        match parseDirectives n r0 with
        | .err e => .err e
        | .ok (actions, r1) =>
          match parseNat r1 with
          | .err e => .err e
          | .ok (speed, r2) =>
            match parseNat r2 with
            | .err e => .err e
            | .ok (variance, r3) => .ok (.Execute actions speed variance, r3)
    else if tag = 1 then
      match parseAckStatus rest with
      | .err e => .err e
      | .ok (status, r1) =>
        match parseOptBytes r1 with
        | .err e => .err e
        | .ok (message, r2) => .ok (.Ack status message, r2)
    else if tag = 2 then .ok (.Ping, rest)
    else if tag = 3 then .ok (.Pong, rest)
    else .err ()

/-- Model of `serde_json::from_slice`: parse one `Message` and reject
trailing bytes. -/
def deserializeMessage (bs : List Nat) : RustResult Unit Message :=
  match parseMessage bs with
  | .err e => .err e
  | .ok (m, rest) => if rest.isEmpty then .ok m else .err ()

/-! ## Codec (src/protocol/codec.rs) -/

/-- Big-endian bytes of `(n as u32)`, as produced by `u32::to_be_bytes`. -/
def u32be (n : Nat) : List Nat :=
  [n / 16777216 % 256, n / 65536 % 256, n / 256 % 256, n % 256]

/-- Value of four big-endian bytes, as read by `u32::from_be_bytes`. -/
def beValue (b0 b1 b2 b3 : Nat) : Nat := ((b0 * 256 + b1) * 256 + b2) * 256 + b3

/-- `encode_message`: serialize the payload and put its length in front as a
4-byte unsigned big-endian integer (`json.len() as u32`, hence `% 2^32`). -/
def encode_message (msg : Message) : List Nat :=
  let json := serializeMessage msg
  u32be (json.length % 4294967296) ++ json

/-- `decode_message`: `ok none` models `Ok(None)` (need more data), `ok (some
(msg, consumed))` models a successful decode, `err` a decode failure. -/
def decode_message (buf : List Nat) : RustResult Unit (Option (Message × Nat)) :=
  match buf with
  | b0 :: b1 :: b2 :: b3 :: rest =>
    let len := beValue b0 b1 b2 b3
    if buf.length < 4 + len then .ok none
    else
      match deserializeMessage (rest.take len) with
      | .err e => .err e
      | .ok msg => .ok (some (msg, 4 + len))
  | _ => .ok none

/-- Declared length of a buffer's 4-byte big-endian frame header
(0 when fewer than 4 bytes are present). -/
def declaredLenOf : List Nat → Nat
  | b0 :: b1 :: b2 :: b3 :: _ => beValue b0 b1 b2 b3
  | _ => 0

/-! ## Grouper (src/grouper.rs) -/

/-- Rust enum `BlockType`. -/
inductive BlockType where
  | Action
  | Pause (timeout : Option Nat)
  | NarrationOnly
deriving DecidableEq

/-- Rust struct `ActionBlock` (`sect` renders the Rust field `section`,
which is a reserved word in Lean). -/
structure ActionBlock where
  narration : Option RStr
  actions : List Directive
  sect : Option RStr
  block_type : BlockType
deriving DecidableEq

/-- `flush_narration`: `None` when no narration is pending, otherwise the
pending lines joined by newline.  (The Rust function also clears the
accumulator; here the caller resets the state explicitly.) -/
def flush_narration (narration : List RStr) : Option RStr :=
  if narration.isEmpty then none
  else some (List.intercalate (strBytes ("\n")) narration)

/-- The grouper's accumulator state: produced blocks so far plus the three
mutable accumulators of `group_into_blocks`. -/
structure GroupState where
  blocks : List ActionBlock
  current_narration : List RStr
  current_actions : List Directive
  current_section : Option RStr
deriving DecidableEq

/-- The `if !current_actions.is_empty() { blocks.push(...) }` flush that the
Rust code repeats in the `Say`, `Section` and `Pause` arms: push pending
actions as an `Action` block carrying the pending narration and the current
section, then clear both accumulators. -/
def flushActionsIfPending (st : GroupState) : GroupState :=
  if st.current_actions.isEmpty then st
  else
    { st with
      blocks := st.blocks ++
        [{ narration := flush_narration st.current_narration,
           actions := st.current_actions,
           sect := st.current_section,
           block_type := .Action }],
      current_narration := [],
      current_actions := [] }

/-- One iteration of the grouper's loop body (the `match` on a directive). -/
def processDirective (st : GroupState) : Directive → GroupState
  | .Say text =>
    let st1 := flushActionsIfPending st
    { st1 with current_narration := st1.current_narration ++ [text] }
  | .Section name =>
    let st1 := flushActionsIfPending st
    { st1 with current_section := some name }
  | .Pause timeout =>
    let st1 := flushActionsIfPending st
    { st1 with
      blocks := st1.blocks ++
        [{ narration := flush_narration st1.current_narration,
           actions := [],
           sect := st1.current_section,
           block_type := .Pause timeout }],
      current_narration := [] }
  | d => { st with current_actions := st.current_actions ++ [d] }

/-- The end-of-input flush after the loop. -/
def groupFinish (st : GroupState) : List ActionBlock :=
  if ¬ st.current_actions.isEmpty then
    st.blocks ++
      [{ narration := flush_narration st.current_narration,
         actions := st.current_actions,
         sect := st.current_section,
         block_type := .Action }]
  else if ¬ st.current_narration.isEmpty then
    st.blocks ++
      [{ narration := flush_narration st.current_narration,
         actions := [],
         sect := st.current_section,
         block_type := .NarrationOnly }]
  else st.blocks

/-- State after folding the loop body over a list of parsed lines. -/
def groupFold (lines : List ParsedLine) : GroupState :=
  lines.foldl (fun st line => processDirective st line.directive)
    { blocks := [], current_narration := [], current_actions := [], current_section := none }

/-- `group_into_blocks`. -/
def group_into_blocks (script : Script) : List ActionBlock :=
  groupFinish (groupFold script.lines)

/-! ## Presenter (src/client/mod.rs) -/

/-- Rust enum `StepResult`. -/
inductive StepResult where
  | Executed
  | Paused (timeout : Option Nat)
  | NarrationOnly
  | Finished
  | AgentError (message : RStr)
  | ConnectionLost
deriving DecidableEq

/-- Rust struct `Presenter`.  The `TcpStream` handle is opaque
(`Option Unit` keeps only the is-connected state); the stored agent
address plays no role in the modelled operations. -/
structure Presenter where
  blocks : List ActionBlock
  current : Nat
  front_matter : FrontMatter
  connection : Option Unit
deriving DecidableEq

/-- `Presenter::is_connected`. -/
def is_connected (p : Presenter) : Bool := p.connection.isSome

/-- `Presenter::progress`. -/
def progress (p : Presenter) : Nat × Nat := (p.current, p.blocks.length)

/-- Outcome of one blocking `stream.read` call. -/
inductive ReadEvent where
  | chunk (bytes : List Nat)
  | closed
  | ioError
deriving DecidableEq

/-- The I/O environment one `send_and_receive` call runs against: whether
the framed write succeeds, and the successive read outcomes. -/
structure IOBehavior where
  writeOk : Bool
  reads : List ReadEvent
deriving DecidableEq

/-- The read-and-decode loop of `send_and_receive`: append each chunk to
`pending`, bail on a zero-length read or read error, propagate a decode
error (the `?` on `decode_message(&pending)?`), return the first complete
message.  An exhausted trace models a read that never yields (times out). -/
def recvLoop : List ReadEvent → List Nat → RustResult Unit Message
  | [], _ => .err ()
  | .closed :: _, _ => .err ()
  | .ioError :: _, _ => .err ()
  | .chunk bytes :: rest, pending =>
    let pending1 := pending ++ bytes
    match decode_message pending1 with
    | .err e => .err e
    | .ok (some (response, _)) => .ok response
    | .ok none => recvLoop rest pending1

/-- `Presenter::send_and_receive`: fail when not connected, write the
encoded message (failure possible), then run the receive loop. -/
def send_and_receive (p : Presenter) (io : IOBehavior) (msg : Message) :
    RustResult Unit Message :=
  match p.connection with
  | none => .err ()
  | some _ =>
    let _encoded := encode_message msg
    if io.writeOk then recvLoop io.reads [] else .err ()

/-- The `Execute` message `step()` builds for an action block. -/
def executeMsg (p : Presenter) (b : ActionBlock) : Message :=
  .Execute b.actions p.front_matter.typing_speed p.front_matter.typing_variance

/-- `Presenter::step`, with the I/O environment made explicit.  Mirrors the
Rust control flow: every path returns `Ok`; a `send_and_receive` failure
clears the connection and yields `ConnectionLost`. -/
def step (p : Presenter) (io : IOBehavior) :
    RustResult Unit (Presenter × StepResult) :=
  match p.blocks[p.current]? with
  | none => .ok (p, .Finished)
  | some block =>
    match block.block_type with
    | .NarrationOnly => .ok ({ p with current := p.current + 1 }, .NarrationOnly)
    | .Pause timeout => .ok ({ p with current := p.current + 1 }, .Paused timeout)
    | .Action =>
      if block.actions.isEmpty then
        .ok ({ p with current := p.current + 1 }, .Executed)
      else
        match send_and_receive p io (executeMsg p block) with
        | .ok (.Ack .Ok _) => .ok ({ p with current := p.current + 1 }, .Executed)
        | .ok (.Ack .Error message) =>
          .ok (p, .AgentError (message.getD (strBytes ("Unknown agent error"))))
        | .ok _ => .ok (p, .AgentError (strBytes ("Unexpected response from agent")))
        | .err _ => .ok ({ p with connection := none }, .ConnectionLost)

/-- Outcome of the TCP connect and socket setup in `Presenter::connect`:
either some step before the stream is stored fails, or a stream is
established and the handshake runs against the given I/O behavior. -/
inductive ConnectAttempt where
  | tcpFail
  | established (io : IOBehavior)
deriving DecidableEq

/-- `Presenter::connect`: on an established stream, store the connection,
then do the `Ping`/`Pong` handshake.  A non-`Pong` reply clears the stored
connection and fails; a `send_and_receive` error propagates through `?`
with the stored connection left in place (exactly as the Rust code does). -/
def connect (p : Presenter) (attempt : ConnectAttempt) :
    Presenter × RustResult Unit Unit :=
  match attempt with
  | .tcpFail => (p, .err ())
  | .established io =>
    let p1 := { p with connection := some () }
    match send_and_receive p1 io .Ping with
    | .err e => (p1, .err e)
    | .ok response =>
      if response = .Pong then (p1, .ok ())
      else ({ p1 with connection := none }, .err ())

/-! ## Agent (src/agent/mod.rs) -/

/-- `Agent::handle_message`, abstracted over the injected executor
capability (`Box<dyn ActionExecutor>`): the executor returns `Ok(())` or an
error whose display string is the payload. -/
def handle_message (exec : List Directive → Nat → Nat → RustResult RStr Unit) :
    Message → Message
  | .Execute actions typing_speed typing_variance =>
    match exec actions typing_speed typing_variance with
    | .ok _ => .Ack .Ok none
    | .err e => .Ack .Error (some e)
  | .Ping => .Pong
  | _ => .Ack .Error (some (strBytes ("Unexpected message type")))

/-! ## Concrete fixtures used by witnesses and counterexamples -/

/-- A small `Execute` message. -/
def msg0 : Message := .Execute [.Focus (strBytes ("Terminal")), .Run] 2 1

/-- A message whose serialized payload is exactly 2^32 bytes long
(an `Ack` carrying a 2147483646-byte error string), so that
`json.len() as u32` truncates its frame header to zero. -/
def bigMsg : Message := .Ack .Error (some (List.replicate 2147483646 120))

/-- A narration-only block. -/
def narrBlock : ActionBlock :=
  { narration := some (strBytes ("hello")), actions := [], sect := none,
    block_type := .NarrationOnly }

/-- An action block with one `Run` directive. -/
def runBlock : ActionBlock :=
  { narration := none, actions := [.Run], sect := none, block_type := .Action }

/-- A presenter holding one narration-only block, not connected. -/
def presenterNarr : Presenter :=
  { blocks := [narrBlock], current := 0, front_matter := FrontMatter.default,
    connection := none }

/-- A connected presenter holding one `Run` action block. -/
def presenterRun : Presenter :=
  { blocks := [runBlock], current := 0, front_matter := FrontMatter.default,
    connection := some () }

/-- A complete frame (declared length 1, one payload byte) whose payload is
not a valid message. -/
def badFrame : List Nat := [0, 0, 0, 1, 99]

/-- An I/O environment whose write fails. -/
def ioFail : IOBehavior := { writeOk := false, reads := [] }

/-- An I/O environment delivering the unparseable frame as the reply. -/
def ioBadFrame : IOBehavior := { writeOk := true, reads := [.chunk badFrame] }

/-- Grouper state with one pending narration line and nothing else. -/
def stSection : GroupState :=
  { blocks := [], current_narration := [strBytes ("hello")], current_actions := [],
    current_section := none }

/-- A script consisting of a single `Pause(Some(3))` directive. -/
def scriptPause : Script :=
  { front_matter := FrontMatter.default,
    lines := [{ line_number := 1, directive := .Pause (some 3) }] }

/-- The block the grouper produces for `scriptPause`. -/
def pauseBlock : ActionBlock :=
  { narration := none, actions := [], sect := none, block_type := .Pause (some 3) }

/-- The invariant claimed for every grouper output block. -/
def BlockOk (b : ActionBlock) : Prop :=
  (∀ t, b.block_type = .Pause t → b.actions = []) ∧
  (b.block_type = .NarrationOnly → b.actions = [])

/-! ## Serializer round-trip lemmas -/

theorem parseNat_encNat (n : Nat) (rest : List Nat) :
    parseNat (encNat n ++ rest) = .ok (n, rest) := by
  induction n with
  | zero => simp [encNat, parseNat]
  | succ k ih =>
    have h : encNat (k + 1) ++ rest = 1 :: (encNat k ++ rest) := by
      simp [encNat, List.replicate_succ]
    rw [h]
    simp [parseNat, ih]

theorem parseBytes_encBytes (s : RStr) (rest : List Nat) :
    parseBytes (encBytes s ++ rest) = .ok (s, rest) := by
  unfold parseBytes encBytes
  rw [List.append_assoc, parseNat_encNat]
  simp [List.take_left, List.drop_left]

theorem parseOptBytes_encOptBytes (o : Option RStr) (rest : List Nat) :
    parseOptBytes (encOptBytes o ++ rest) = .ok (o, rest) := by
  cases o with
  | none => simp [encOptBytes, parseOptBytes]
  | some s =>
    have h : encOptBytes (some s) ++ rest = 1 :: (encBytes s ++ rest) := by
      simp [encOptBytes]
    rw [h]
    simp [parseOptBytes, parseBytes_encBytes]

theorem parseOptNat_encOptNat (o : Option Nat) (rest : List Nat) :
    parseOptNat (encOptNat o ++ rest) = .ok (o, rest) := by
  cases o with
  | none => simp [encOptNat, parseOptNat]
  | some n =>
    have h : encOptNat (some n) ++ rest = 1 :: (encNat n ++ rest) := by
      simp [encOptNat]
    rw [h]
    simp [parseOptNat, parseNat_encNat]

theorem parseSlide_encSlide (a : SlideAction) (rest : List Nat) :
    parseSlide (encSlide a ++ rest) = .ok (a, rest) := by
  cases a with
  | Next => simp [encSlide, parseSlide]
  | Prev => simp [encSlide, parseSlide]
  | GoTo n =>
    have h : encSlide (.GoTo n) ++ rest = 2 :: (encNat n ++ rest) := by
      simp [encSlide]
    rw [h]
    simp [parseSlide, parseNat_encNat]

theorem parseDirective_serializeDirective (d : Directive) (rest : List Nat) :
    parseDirective (serializeDirective d ++ rest) = .ok (d, rest) := by
  cases d <;>
    simp [serializeDirective, parseDirective, parseBytes_encBytes,
      parseOptNat_encOptNat, parseSlide_encSlide, parseNat_encNat]

theorem parseDirectives_encDirectives (ds : List Directive) (rest : List Nat) :
    parseDirectives ds.length (encDirectives ds ++ rest) = .ok (ds, rest) := by
  induction ds generalizing rest with
  | nil => simp [encDirectives, parseDirectives]
  | cons d ds ih =>
    simp [encDirectives, parseDirectives, List.append_assoc,
      parseDirective_serializeDirective, ih]

theorem parseAckStatus_encAckStatus (st : AckStatus) (rest : List Nat) :
    parseAckStatus (encAckStatus st ++ rest) = .ok (st, rest) := by
  cases st <;> simp [encAckStatus, parseAckStatus]

theorem parseMessage_serializeMessage (m : Message) (rest : List Nat) :
    parseMessage (serializeMessage m ++ rest) = .ok (m, rest) := by
  cases m with
  | Execute actions speed variance =>
    simp [serializeMessage, parseMessage, List.append_assoc, parseNat_encNat,
      parseDirectives_encDirectives]
  | Ack status message =>
    simp [serializeMessage, parseMessage, List.append_assoc,
      parseAckStatus_encAckStatus, parseOptBytes_encOptBytes]
  | Ping => simp [serializeMessage, parseMessage]
  | Pong => simp [serializeMessage, parseMessage]

theorem deserializeMessage_serializeMessage (m : Message) :
    deserializeMessage (serializeMessage m) = .ok m := by
  have h := parseMessage_serializeMessage m []
  rw [List.append_nil] at h
  simp [deserializeMessage, h]

/-! ## Codec helper lemmas -/

theorem beValue_u32be (n : Nat) (h : n < 4294967296) :
    beValue (n / 16777216 % 256) (n / 65536 % 256) (n / 256 % 256) (n % 256) = n := by
  unfold beValue
  omega

theorem decode_message_short (buf : List Nat) (h : buf.length < 4) :
    decode_message buf = .ok none := by
  match buf with
  | [] => rfl
  | [_] => rfl
  | [_, _] => rfl
  | [_, _, _] => rfl
  | _ :: _ :: _ :: _ :: t => simp [List.length_cons] at h; omega

theorem length_encode_message (m : Message) :
    (encode_message m).length = 4 + (serializeMessage m).length := by
  simp [encode_message, u32be]
  omega

theorem encode_message_eq_cons (m : Message)
    (h : (serializeMessage m).length < 4294967296) :
    encode_message m =
      ((serializeMessage m).length / 16777216 % 256) ::
      ((serializeMessage m).length / 65536 % 256) ::
      ((serializeMessage m).length / 256 % 256) ::
      ((serializeMessage m).length % 256) :: serializeMessage m := by
  simp [encode_message, u32be, Nat.mod_eq_of_lt h]

theorem encNat_length (n : Nat) : (encNat n).length = n + 1 := by
  rw [encNat, List.length_append, List.length_replicate]
  rfl

theorem bigMsg_payload_length : (serializeMessage bigMsg).length = 4294967296 := by
  have h : serializeMessage bigMsg
      = 1 :: (encAckStatus .Error ++ encOptBytes (some (List.replicate 2147483646 120))) := rfl
  have h1 : (encAckStatus AckStatus.Error).length = 1 := rfl
  have h2 : (encOptBytes (some (List.replicate 2147483646 120))).length = 4294967294 := by
    rw [encOptBytes, List.length_cons, encBytes, List.length_append, encNat_length]
    simp only [List.length_replicate]
  rw [h, List.length_cons, List.length_append, h1, h2]

theorem encode_bigMsg :
    encode_message bigMsg = 0 :: 0 :: 0 :: 0 :: serializeMessage bigMsg := by
  simp only [encode_message, bigMsg_payload_length]
  norm_num [u32be]

/-! ## Claim C2: framing round trip -/

/-- C2 counterexample: the round trip fails for `bigMsg`, whose serialized
payload is exactly 2^32 bytes: `json.len() as u32` truncates the frame
header to zero, so `decode_message` parses a 0-byte payload and fails
instead of returning `(bigMsg, len(encode_message bigMsg))`. -/
theorem c2_counterexample : decode_message (encode_message bigMsg) = .err () := by
  have decode_zero_header : ∀ s : List Nat,
      decode_message (0 :: 0 :: 0 :: 0 :: s) = .err () := by
    intro s
    simp only [decode_message]
    have hbe : beValue 0 0 0 0 = 0 := rfl
    rw [hbe, if_neg (by simp only [List.length_cons]; omega), List.take_zero]
    rfl
  rw [encode_bigMsg]
  exact decode_zero_header _

/-- C2 (amended): for every message whose serialized payload is shorter
than 2^32 bytes, `decode_message (encode_message m)` succeeds and returns
exactly `(m, len(encode_message m))` — encoding then decoding is the
identity and consumes precisely the encoded length, preserving each
variant's tag and, for `Execute`, the directive list losslessly. -/
theorem c2_theorem (m : Message) (h : (serializeMessage m).length < 4294967296) :
    decode_message (encode_message m) = .ok (some (m, (encode_message m).length)) := by
  rw [length_encode_message m, encode_message_eq_cons m h]
  simp only [decode_message]
  rw [beValue_u32be _ h, if_neg (by simp only [List.length_cons]; omega),
    List.take_length, deserializeMessage_serializeMessage]

/-- C2 witness: the amended round trip at the concrete message `msg0`. -/
theorem c2_witness :
    (serializeMessage msg0).length < 4294967296 ∧
    decode_message (encode_message msg0) = .ok (some (msg0, (encode_message msg0).length)) :=
  ⟨by decide, c2_theorem msg0 (by decide)⟩

/-! ## Claim C9: partial-buffer safety -/

/-- C9 counterexample: for `bigMsg` (payload exactly 2^32 bytes, truncated
frame header zero) the 4-byte strict prefix of the encoding makes
`decode_message` fail instead of signalling need-more-data. -/
theorem c9_counterexample :
    decode_message ((encode_message bigMsg).take 4) = .err () ∧
    4 < (encode_message bigMsg).length := by
  constructor
  · rw [encode_bigMsg]
    have htake : (0 :: 0 :: 0 :: 0 :: serializeMessage bigMsg).take 4 = [0, 0, 0, 0] := rfl
    rw [htake]
    decide
  · rw [length_encode_message, bigMsg_payload_length]
    norm_num

/-- C9 (amended): for every message whose serialized payload is shorter
than 2^32 bytes and every strict prefix of its encoding, `decode_message`
signals need-more-data (`Ok(None)`, consuming nothing). -/
theorem c9_theorem (m : Message) (k : Nat)
    (h : (serializeMessage m).length < 4294967296)
    (hk : k < (encode_message m).length) :
    decode_message ((encode_message m).take k) = .ok none := by
  rcases Nat.lt_or_ge k 4 with h4 | h4
  · apply decode_message_short
    have hlen : ((encode_message m).take k).length ≤ k := by
      rw [List.length_take]
      omega
    omega
  · obtain ⟨j, rfl⟩ := Nat.exists_eq_add_of_le h4
    rw [length_encode_message] at hk
    rw [encode_message_eq_cons m h]
    have htake : ∀ (b0 b1 b2 b3 : Nat) (s : List Nat),
        (b0 :: b1 :: b2 :: b3 :: s).take (4 + j) = b0 :: b1 :: b2 :: b3 :: s.take j := by
      intro b0 b1 b2 b3 s
      rw [show (4 + j) = (3 + j) + 1 from by omega, List.take_succ_cons,
          show (3 + j) = (2 + j) + 1 from by omega, List.take_succ_cons,
          show (2 + j) = (1 + j) + 1 from by omega, List.take_succ_cons,
          show (1 + j) = j + 1 from by omega, List.take_succ_cons]
    rw [htake]
    simp only [decode_message]
    rw [beValue_u32be _ h,
      if_pos (by simp only [List.length_cons, List.length_take]; omega)]

/-- C9 witness: the amended partial-buffer safety at `msg0` with prefix
length 5. -/
theorem c9_witness :
    (serializeMessage msg0).length < 4294967296 ∧ 5 < (encode_message msg0).length ∧
    decode_message ((encode_message msg0).take 5) = .ok none :=
  ⟨by decide, by decide, c9_theorem msg0 5 (by decide) (by decide)⟩

/-! ## Claim C6: no declared-length cap -/

/-- C6 counterexample: no upper bound below the format's maximum exists
such that a larger declared length makes `decode_message` fail on an
incomplete buffer: the buffer `[255,255,255,255]` declares the maximal
length 2^32 - 1 yet `decode_message` returns `Ok(None)` (need more data),
not an error. -/
theorem c6_counterexample :
    ¬ ∃ B : Nat, B < 4294967295 ∧
      ∀ buf : List Nat, 4 ≤ buf.length → B < declaredLenOf buf →
        buf.length < 4 + declaredLenOf buf → decode_message buf = .err () := by
  rintro ⟨B, hB, h⟩
  have hd : declaredLenOf [255, 255, 255, 255] = 4294967295 := by decide
  have hh := h [255, 255, 255, 255] (by decide) (by rw [hd]; exact hB) (by rw [hd]; decide)
  have hdec : decode_message [255, 255, 255, 255] = .ok none := by decide
  rw [hdec] at hh
  exact RustResult.noConfusion hh

/-- C6 (amended): `decode_message` imposes no cap at all on the declared
length: whenever the buffer holds at least 4 bytes but fewer than
`4 + declared` bytes, it signals need-more-data, however large the declared
length is. -/
theorem c6_theorem (b0 b1 b2 b3 : Nat) (rest : List Nat)
    (h : (b0 :: b1 :: b2 :: b3 :: rest).length < 4 + beValue b0 b1 b2 b3) :
    decode_message (b0 :: b1 :: b2 :: b3 :: rest) = .ok none := by
  simp only [decode_message]
  rw [if_pos h]

/-- C6 witness: the amended no-cap behavior at the concrete incomplete
buffer `[0,0,0,5]`. -/
theorem c6_witness :
    (([0, 0, 0, 5] : List Nat).length < 4 + beValue 0 0 0 5) ∧
    decode_message [0, 0, 0, 5] = .ok none :=
  ⟨by decide, c6_theorem 0 0 0 5 [] (by decide)⟩

/-! ## Claim C1: cursor advancement discipline of `step()` -/

/-- C1: for every presenter state and every I/O outcome, the cursor
advances on `step()` only when it returns `NarrationOnly`, `Paused` or
`Executed` (and then by exactly one); `progress()` is unchanged whenever
`step()` returns `AgentError` or `ConnectionLost`; a `Finished` result
mutates nothing. -/
theorem c1_theorem (p : Presenter) (io : IOBehavior) (q : Presenter) (r : StepResult)
    (h : step p io = .ok (q, r)) :
    ((r = .NarrationOnly ∨ (∃ t, r = .Paused t) ∨ r = .Executed) →
      q.current = p.current + 1) ∧
    (((∃ s, r = .AgentError s) ∨ r = .ConnectionLost) → progress q = progress p) ∧
    (r = .Finished → q = p) ∧
    (q.current = p.current + 1 ∨ q.current = p.current) := by
  unfold step at h
  split at h
  all_goals try split at h
  all_goals try split at h
  all_goals try split at h
  all_goals
    injection h with h'
  all_goals
    obtain ⟨rfl, rfl⟩ := Prod.mk.inj h'
  all_goals
    refine ⟨?_, ?_, ?_, ?_⟩ <;> simp [progress]

/-- C1 witness: stepping a narration-only block advances the cursor by
exactly one. -/
theorem c1_witness :
    step presenterNarr { writeOk := true, reads := [] } =
      .ok ({ presenterNarr with current := 1 }, .NarrationOnly) ∧
    ({ presenterNarr with current := 1 } : Presenter).current = presenterNarr.current + 1 :=
  ⟨by decide,
    (c1_theorem presenterNarr { writeOk := true, reads := [] }
      { presenterNarr with current := 1 } .NarrationOnly (by decide)).1 (Or.inl rfl)⟩

/-! ## Claim C10: totality of `step()` and failure mapping -/

/-- C10: `step()` is total at its interface: for every presenter state and
every I/O outcome it returns `Ok` with a `StepResult` and never propagates
an error; when the block is a non-empty `Action` block and
`send_and_receive` fails, the result is `ConnectionLost` with the
connection cleared. -/
theorem c10_theorem (p : Presenter) (io : IOBehavior) :
    ∃ q r, step p io = .ok (q, r) ∧
      (∀ b, p.blocks[p.current]? = some b → b.block_type = .Action →
        b.actions.isEmpty = false →
        send_and_receive p io (executeMsg p b) = .err () →
        r = .ConnectionLost ∧ q.connection = none) := by
  rcases hget : p.blocks[p.current]? with _ | block
  · exact ⟨p, .Finished, by simp [step, hget],
      fun b hb => absurd hb (by simp)⟩
  · rcases hty : block.block_type with _ | t | _
    · rcases hie : block.actions.isEmpty with _ | _
      · rcases hsr : send_and_receive p io (executeMsg p block) with msg | e
        · have hinner : ∀ (C : Prop) (b : ActionBlock), some block = some b →
              send_and_receive p io (executeMsg p b) = .err () → C := by
            intro C b hb hfail
            rw [Option.some.inj hb] at hsr
            rw [hsr] at hfail
            exact RustResult.noConfusion hfail
          rcases msg with ⟨a, s, v⟩ | ⟨st, m⟩ | _ | _
          · exact ⟨p, .AgentError (strBytes ("Unexpected response from agent")),
              by simp [step, hget, hty, hie, hsr],
              fun b hb _ _ hfail => hinner _ b hb hfail⟩
          · rcases st with _ | _
            · exact ⟨{ p with current := p.current + 1 }, .Executed,
                by simp [step, hget, hty, hie, hsr],
                fun b hb _ _ hfail => hinner _ b hb hfail⟩
            · exact ⟨p, .AgentError (m.getD (strBytes ("Unknown agent error"))),
                by simp [step, hget, hty, hie, hsr],
                fun b hb _ _ hfail => hinner _ b hb hfail⟩
          · exact ⟨p, .AgentError (strBytes ("Unexpected response from agent")),
              by simp [step, hget, hty, hie, hsr],
              fun b hb _ _ hfail => hinner _ b hb hfail⟩
          · exact ⟨p, .AgentError (strBytes ("Unexpected response from agent")),
              by simp [step, hget, hty, hie, hsr],
              fun b hb _ _ hfail => hinner _ b hb hfail⟩
        · exact ⟨{ p with connection := none }, .ConnectionLost,
            by simp [step, hget, hty, hie, hsr],
            fun b _ _ _ _ => ⟨rfl, rfl⟩⟩
      · refine ⟨{ p with current := p.current + 1 }, .Executed,
          by simp [step, hget, hty, hie], ?_⟩
        intro b hb _ hne _
        rw [Option.some.inj hb] at hie
        rw [hie] at hne
        exact Bool.noConfusion hne
    · refine ⟨{ p with current := p.current + 1 }, .Paused t,
        by simp [step, hget, hty], ?_⟩
      intro b hb hact _ _
      rw [Option.some.inj hb] at hty
      rw [hty] at hact
      exact BlockType.noConfusion hact
    · refine ⟨{ p with current := p.current + 1 }, .NarrationOnly,
        by simp [step, hget, hty], ?_⟩
      intro b hb hact _ _
      rw [Option.some.inj hb] at hty
      rw [hty] at hact
      exact BlockType.noConfusion hact

/-- C10 witness: the totality and failure mapping at a connected presenter
whose write fails. -/
theorem c10_witness :
    ∃ q r, step presenterRun ioFail = .ok (q, r) ∧
      (∀ b, presenterRun.blocks[presenterRun.current]? = some b →
        b.block_type = .Action → b.actions.isEmpty = false →
        send_and_receive presenterRun ioFail (executeMsg presenterRun b) = .err () →
        r = .ConnectionLost ∧ q.connection = none) :=
  c10_theorem presenterRun ioFail

/-! ## Claim C4: decode failure of a reply -/

/-- C4 counterexample: a length-complete but unparseable reply does not
yield `AgentError("unexpected response")` with the connection kept; the
code clears the connection and returns `ConnectionLost`. -/
theorem c4_counterexample :
    decode_message badFrame = .err () ∧
    step presenterRun ioBadFrame =
      .ok ({ presenterRun with connection := none }, .ConnectionLost) ∧
    (RustResult.ok ({ presenterRun with connection := none }, StepResult.ConnectionLost) :
        RustResult Unit (Presenter × StepResult)) ≠
      .ok (presenterRun, .AgentError (strBytes ("unexpected response"))) :=
  ⟨by decide, by decide, by decide⟩

/-- C4 (amended): when the reply bytes are length-complete but fail to
decode, `send_and_receive` propagates the decode error, so `step()`
returns `ConnectionLost` with the connection cleared and the cursor
unchanged — the same outcome as an I/O failure, not `AgentError`. -/
theorem c4_theorem (p : Presenter) (block : ActionBlock) (bytes : List Nat)
    (hc : p.connection = some ())
    (hb : p.blocks[p.current]? = some block)
    (hty : block.block_type = .Action)
    (hne : block.actions.isEmpty = false)
    (hdec : decode_message bytes = .err ()) :
    step p { writeOk := true, reads := [.chunk bytes] } =
      .ok ({ p with connection := none }, .ConnectionLost) := by
  have hsr : send_and_receive p { writeOk := true, reads := [.chunk bytes] }
      (executeMsg p block) = .err () := by
    simp [send_and_receive, hc, recvLoop, hdec]
  simp [step, hb, hty, hne, hsr]

/-- C4 witness: the amended behavior at a concrete connected presenter and
the concrete unparseable frame. -/
theorem c4_witness :
    presenterRun.connection = some () ∧
    presenterRun.blocks[presenterRun.current]? = some runBlock ∧
    runBlock.block_type = .Action ∧
    runBlock.actions.isEmpty = false ∧
    decode_message badFrame = .err () ∧
    step presenterRun { writeOk := true, reads := [.chunk badFrame] } =
      .ok ({ presenterRun with connection := none }, .ConnectionLost) :=
  ⟨rfl, by decide, rfl, rfl, by decide,
    c4_theorem presenterRun runBlock badFrame rfl (by decide) rfl rfl (by decide)⟩

/-! ## Claim C3: handshake failure handling in `connect()` -/

/-- C3: `connect()` does return failure in every handshake-failure case,
but when the handshake I/O itself fails (read error, timeout, peer close)
the `?` operator exits `connect` after `self.connection` was already set,
so `is_connected()` remains `true` — contradicting the claim that the
connection is torn down in every handshake-failure case. -/
theorem c3_theorem :
    (connect presenterNarr (.established { writeOk := true, reads := [.ioError] })).2 =
      .err () ∧
    is_connected
      (connect presenterNarr (.established { writeOk := true, reads := [.ioError] })).1 =
      true :=
  ⟨by decide, by decide⟩

/-! ## Claim C5: agent dispatch -/

/-- C5 counterexample: the rejection message for an unexpected message type
is `"Unexpected message type"` (capital U), not the claimed
`"unexpected message type"`. -/
theorem c5_counterexample :
    handle_message (fun _ _ _ => .ok ()) .Pong ≠
      .Ack .Error (some (strBytes ("unexpected message type"))) := by
  decide

/-- C5 (amended): for every incoming message the agent produces exactly one
reply: for `Execute` it invokes the executor with those parameters and
replies `Ack{Ok, none}` on success or `Ack{Error, message}` on failure;
for `Ping` it replies `Pong`; for any other message type it replies
`Ack{Error, "Unexpected message type"}`. -/
theorem c5_theorem (exec : List Directive → Nat → Nat → RustResult RStr Unit) :
    (∀ actions speed variance,
      handle_message exec (.Execute actions speed variance) =
        match exec actions speed variance with
        | .ok _ => .Ack .Ok none
        | .err e => .Ack .Error (some e)) ∧
    handle_message exec .Ping = .Pong ∧
    (∀ status message,
      handle_message exec (.Ack status message) =
        .Ack .Error (some (strBytes ("Unexpected message type")))) ∧
    handle_message exec .Pong =
      .Ack .Error (some (strBytes ("Unexpected message type"))) :=
  ⟨fun _ _ _ => rfl, rfl, fun _ _ => rfl, rfl⟩

/-- C5 witness: the amended dispatch at a concrete failing executor. -/
theorem c5_witness :
    handle_message (fun _ _ _ => .err (strBytes ("no accessibility")))
        (.Execute [.Run] 40 15) =
      .Ack .Error (some (strBytes ("no accessibility"))) ∧
    handle_message (fun _ _ _ => RustResult.err (strBytes ("no accessibility"))) .Ping =
      .Pong :=
  ⟨(c5_theorem (fun _ _ _ => .err (strBytes ("no accessibility")))).1 [.Run] 40 15,
   (c5_theorem (fun _ _ _ => .err (strBytes ("no accessibility")))).2.1⟩

/-! ## Claim C7: section change and pending narration -/

/-- C7: processing `Section(name)` flushes pending actions (if any) into an
`Action` block attributed to the previous section, then sets the current
section to `name`; it does not flush pending narration — with no pending
actions the state is untouched except for the section, and the narration
accumulated before the `Section` combines with a following directive into
one block whose section is the new name. -/
theorem c7_theorem (st : GroupState) (name text : RStr) :
    (st.current_actions.isEmpty = false →
      processDirective st (.Section name) =
        { blocks := st.blocks ++
            [{ narration := flush_narration st.current_narration,
               actions := st.current_actions,
               sect := st.current_section,
               block_type := .Action }],
          current_narration := [],
          current_actions := [],
          current_section := some name }) ∧
    (st.current_actions = [] →
      processDirective st (.Section name) = { st with current_section := some name }) ∧
    (st.current_actions = [] →
      groupFinish (processDirective (processDirective st (.Section name)) (.Type text)) =
        st.blocks ++
          [{ narration := flush_narration st.current_narration,
             actions := [.Type text],
             sect := some name,
             block_type := .Action }]) := by
  obtain ⟨bl, narr, acts, sec⟩ := st
  refine ⟨?_, ?_, ?_⟩
  · intro hne
    simp only [processDirective, flushActionsIfPending] at *
    simp [hne]
  · intro hA
    subst hA
    simp [processDirective, flushActionsIfPending]
  · intro hA
    subst hA
    simp [processDirective, flushActionsIfPending, groupFinish]

/-- C7 witness: at a state holding only pending narration, a section change
keeps the narration pending and it lands in one block with the new
section name together with the following directive. -/
theorem c7_witness :
    stSection.current_actions = [] ∧
    groupFinish (processDirective (processDirective stSection
        (.Section (strBytes ("Demo")))) (.Type (strBytes ("ls")))) =
      stSection.blocks ++
        [{ narration := flush_narration stSection.current_narration,
           actions := [.Type (strBytes ("ls"))],
           sect := some (strBytes ("Demo")),
           block_type := .Action }] :=
  ⟨rfl, (c7_theorem stSection (strBytes ("Demo")) (strBytes ("ls"))).2.2 rfl⟩

/-! ## Claim C8: block invariants and standalone pauses -/

theorem blockOk_flushActionsIfPending (st : GroupState)
    (hsb : ∀ b ∈ st.blocks, BlockOk b) :
    ∀ b ∈ (flushActionsIfPending st).blocks, BlockOk b := by
  unfold flushActionsIfPending
  split
  · exact hsb
  · intro b hb
    rcases List.mem_append.mp hb with hmem | hmem
    · exact hsb b hmem
    · rcases List.mem_singleton.mp hmem with rfl
      exact ⟨fun t ht => BlockType.noConfusion ht, fun ht => BlockType.noConfusion ht⟩

theorem blockOk_processDirective (st : GroupState) (d : Directive)
    (hsb : ∀ b ∈ st.blocks, BlockOk b) :
    ∀ b ∈ (processDirective st d).blocks, BlockOk b := by
  cases d with
  | Say text => exact blockOk_flushActionsIfPending st hsb
  | Section name => exact blockOk_flushActionsIfPending st hsb
  | Pause timeout =>
    intro b hb
    rcases List.mem_append.mp hb with hmem | hmem
    · exact blockOk_flushActionsIfPending st hsb b hmem
    · rcases List.mem_singleton.mp hmem with rfl
      exact ⟨fun t ht => rfl, fun ht => rfl⟩
  | «Type» text => exact hsb
  | Run => exact hsb
  | Focus app => exact hsb
  | Slide a => exact hsb
  | Key combo => exact hsb
  | Clear => exact hsb
  | Wait secs => exact hsb
  | Exec cmd => exact hsb

theorem blockOk_groupFold (lines : List ParsedLine) (st : GroupState)
    (hsb : ∀ b ∈ st.blocks, BlockOk b) :
    ∀ b ∈ (lines.foldl (fun st line => processDirective st line.directive) st).blocks,
      BlockOk b := by
  induction lines generalizing st with
  | nil => exact hsb
  | cons l ls ih => exact ih _ (blockOk_processDirective st l.directive hsb)

theorem blockOk_groupFinish (st : GroupState) (hsb : ∀ b ∈ st.blocks, BlockOk b) :
    ∀ b ∈ groupFinish st, BlockOk b := by
  unfold groupFinish
  split
  · intro b hb
    rcases List.mem_append.mp hb with hmem | hmem
    · exact hsb b hmem
    · rcases List.mem_singleton.mp hmem with rfl
      exact ⟨fun t ht => BlockType.noConfusion ht, fun ht => BlockType.noConfusion ht⟩
  · split
    · intro b hb
      rcases List.mem_append.mp hb with hmem | hmem
      · exact hsb b hmem
      · rcases List.mem_singleton.mp hmem with rfl
        exact ⟨fun t ht => rfl, fun ht => rfl⟩
    · exact hsb

/-- C8: every block produced by `group_into_blocks` satisfies the
invariant that `Pause` and `NarrationOnly` blocks carry no actions; and a
`Pause` directive always yields its own standalone `Pause` block (carrying
whatever narration is pending after the action flush), never merged with
pending actions. -/
theorem c8_theorem (script : Script) :
    (∀ b ∈ group_into_blocks script,
        (∀ t, b.block_type = .Pause t → b.actions = []) ∧
        (b.block_type = .NarrationOnly → b.actions = [])) ∧
    (∀ (st : GroupState) (timeout : Option Nat),
        (processDirective st (.Pause timeout)).blocks =
          (flushActionsIfPending st).blocks ++
            [{ narration := flush_narration (flushActionsIfPending st).current_narration,
               actions := [],
               sect := st.current_section,
               block_type := .Pause timeout }]) := by
  constructor
  · intro b hb
    exact blockOk_groupFinish (groupFold script.lines)
      (blockOk_groupFold script.lines _ (fun b hb => absurd hb (List.not_mem_nil b))) b hb
  · intro st timeout
    obtain ⟨bl, narr, acts, sec⟩ := st
    by_cases hc : acts.isEmpty <;>
      simp [processDirective, flushActionsIfPending, hc]

/-- C8 witness: the invariant at the concrete pause script. -/
theorem c8_witness :
    pauseBlock ∈ group_into_blocks scriptPause ∧ pauseBlock.actions = [] :=
  ⟨by decide, ((c8_theorem scriptPause).1 pauseBlock (by decide)).1 (some 3) rfl⟩

end CodeMonkey
